import Mathlib

/-!
Shallow embedding of the lattice core of the `artificial-systems` repository:
periodic ring tables (`Periodicity`), square lattices in one, two and three
dimensions with their `SiteState` / `SiteStateNN` operations, the
`UniformSites` initial-state strategy, and the `SimpleSwapDiffusion` dynamic.
Machine integers (`usize`) are modelled as `Nat` with explicit wrapping
(`% USIZE`) where the source performs wrapping arithmetic; panics are
modelled with `Option`.  Randomness is modelled as an explicit stream of raw
draws (`RngStream`) together with a running position, mirroring how every
operation of the source receives the caller's `rng` by mutable reference and
consumes a definite number of draws from it.
-/

/-- Size of the `usize` machine-integer type (64-bit target). -/
def USIZE : Nat := 2 ^ 64

/-- Embedding of `usize::wrapping_sub(1)`: subtract one, wrapping modulo `2^64`. -/
def wrappingSub1 (k : Nat) : Nat := (k + (USIZE - 1)) % USIZE

/-- Embedding of `Periodicity`: the two precomputed ring-adjacency tables. -/
structure Periodicity where
  prevTable : List Nat
  nextTable : List Nat
deriving DecidableEq, Repr

/-- Embedding of `Periodicity::new(length)`.  The source builds
`prev = (0..length).map(|k| k.wrapping_sub(1))` and `next = (0..length).map(|k| k + 1)`
and then overwrites `prev[0] = length - 1` and `next[length - 1] = 0`; for
`length == 0` that overwrite indexes an empty vector and panics, modelled as
`none`. -/
def Periodicity.new (length : Nat) : Option Periodicity :=
  if length = 0 then none
  else
    let prev0 : List Nat := (List.range length).map wrappingSub1
    let next0 : List Nat := (List.range length).map (fun k => k + 1)
    some ⟨prev0.set 0 (length - 1), next0.set (length - 1) 0⟩

/-- Embedding of `Periodicity::prev(k)`: `Vec` indexing, panicking (= `none`)
out of range. -/
def Periodicity.prev (p : Periodicity) (k : Nat) : Option Nat := p.prevTable.get? k

/-- Embedding of `Periodicity::next(k)`: `Vec` indexing, panicking (= `none`)
out of range. -/
def Periodicity.next (p : Periodicity) (k : Nat) : Option Nat := p.nextTable.get? k

/-- Closed form of the previous-index table entry on a ring of size `L`. -/
def prevIdx (L k : Nat) : Nat := if k = 0 then L - 1 else k - 1

/-- Closed form of the next-index table entry on a ring of size `L`. -/
def nextIdx (L k : Nat) : Nat := if k = L - 1 then 0 else k + 1

theorem prevIdx_lt (L k : Nat) (hL : 1 ≤ L) (hk : k < L) : prevIdx L k < L := by
  unfold prevIdx
  split
  · omega
  · omega

theorem nextIdx_lt (L k : Nat) (hk : k < L) : nextIdx L k < L := by
  unfold nextIdx
  split
  · omega
  · omega

theorem prevIdx_nextIdx (L k : Nat) (hk : k < L) : prevIdx L (nextIdx L k) = k := by
  unfold prevIdx nextIdx
  by_cases h : k = L - 1
  · rw [if_pos h, if_pos rfl]
    omega
  · rw [if_neg h, if_neg (by omega)]
    omega

theorem nextIdx_prevIdx (L k : Nat) (hk : k < L) : nextIdx L (prevIdx L k) = k := by
  unfold prevIdx nextIdx
  by_cases h : k = 0
  · rw [if_pos h, if_pos rfl]
    omega
  · rw [if_neg h, if_neg (by omega)]
    omega

/-- The raw closed form of each `prev`-table lookup of a constructed
`Periodicity`, with no bound on `L`: the table has an entry exactly at the
in-range indices. -/
theorem periodicity_prev_get (L : Nat) (hL : 1 ≤ L) (p : Periodicity)
    (hp : Periodicity.new L = some p) (k : Nat) :
    p.prev k = if k < L then some (if k = 0 then L - 1 else wrappingSub1 k) else none := by
  unfold Periodicity.new at hp
  rw [if_neg (by omega)] at hp
  simp only [Option.some.injEq] at hp
  subst hp
  unfold Periodicity.prev
  simp only [List.get?_eq_getElem?]
  by_cases hk : k < L
  · rw [if_pos hk]
    by_cases h0 : k = 0
    · subst h0
      rw [List.getElem?_set_self (by simpa using hL)]
      simp
    · rw [List.getElem?_set_ne (by omega)]
      simp [hk, h0]
  · rw [if_neg hk]
    rw [List.getElem?_set_ne (by omega), List.getElem?_eq_none]
    simp only [List.length_map, List.length_range]
    omega

/-- The raw closed form of each `next`-table lookup of a constructed
`Periodicity`. -/
theorem periodicity_next_get (L : Nat) (hL : 1 ≤ L) (p : Periodicity)
    (hp : Periodicity.new L = some p) (k : Nat) :
    p.next k = if k < L then some (nextIdx L k) else none := by
  unfold Periodicity.new at hp
  rw [if_neg (by omega)] at hp
  simp only [Option.some.injEq] at hp
  subst hp
  unfold Periodicity.next nextIdx
  simp only [List.get?_eq_getElem?]
  by_cases hk : k < L
  · rw [if_pos hk]
    by_cases hl : k = L - 1
    · subst hl
      rw [List.getElem?_set_self (by simpa using hk)]
      simp
    · rw [List.getElem?_set_ne (by omega)]
      simp [hk, hl]
  · rw [if_neg hk]
    rw [List.getElem?_set_ne (by omega), List.getElem?_eq_none]
    simp only [List.length_map, List.length_range]
    omega

/-- For realizable lengths (`L ≤ 2^64`, the `usize` range) the `prev` table
agrees with the closed form `prevIdx`. -/
theorem periodicity_prev_get_idx (L : Nat) (hL : 1 ≤ L) (hU : L ≤ USIZE) (p : Periodicity)
    (hp : Periodicity.new L = some p) (k : Nat) (hk : k < L) :
    p.prev k = some (prevIdx L k) := by
  rw [periodicity_prev_get L hL p hp k, if_pos hk]
  unfold prevIdx wrappingSub1
  by_cases h0 : k = 0
  · simp [h0]
  · rw [if_neg h0, if_neg h0]
    have h1 : 1 ≤ k := by omega
    have hU1 : 1 ≤ USIZE := Nat.one_le_two_pow
    have : k + (USIZE - 1) = (k - 1) + USIZE := by omega
    rw [this, Nat.add_mod_right]
    rw [Nat.mod_eq_of_lt (by omega)]

/-- A pseudorandom source: an infinite stream of raw draws, addressed by
position.  Every sampling primitive of the source consumes one draw and
advances the position, mirroring `rand`'s stateful `Rng`. -/
def RngStream : Type := Nat → Nat

/-- Embedding of `ndarray`'s `swap(a, b)`: exchange the elements at two positions.  With
both positions in range it swaps; the out-of-range case (a panic in the
source) never arises at the call sites modelled here. -/
def listSwap {T : Type} (s : List T) (a b : Nat) : List T :=
  match s.get? a, s.get? b with
  | some x, some y => (s.set a y).set b x
  | some _, none => s
  | none, _ => s

theorem cons_set_perm {T : Type} :
    ∀ (t : List T) (m : Nat) (y z : T), t.get? m = some y →
      (y :: t.set m z).Perm (z :: t) := by
  intro t
  induction t with
  | nil => intro m y z h; simp at h
  | cons w u ih =>
    intro m y z h
    match m with
    | 0 =>
      simp only [List.get?_cons_zero, Option.some.injEq] at h
      subst h
      simpa using List.Perm.swap z w u
    | Nat.succ k =>
      simp only [List.get?_cons_succ] at h
      have h1 : (y :: w :: u.set k z).Perm (w :: y :: u.set k z) := List.Perm.swap w y _
      have h2 : (w :: y :: u.set k z).Perm (w :: z :: u) := (ih k y z h).cons w
      have h3 : (w :: z :: u).Perm (z :: w :: u) := List.Perm.swap z w u
      exact ((h1.trans h2).trans h3)

theorem set_set_perm {T : Type} :
    ∀ (s : List T) (a b : Nat) (x y : T), s.get? a = some x → s.get? b = some y →
      ((s.set a y).set b x).Perm s := by
  intro s
  induction s with
  | nil => intro a b x y ha _; simp at ha
  | cons z t ih =>
    intro a b x y ha hb
    match a, b with
    | 0, 0 =>
      simp only [List.get?_cons_zero, Option.some.injEq] at ha hb
      subst ha; subst hb
      simp
    | 0, Nat.succ m =>
      simp only [List.get?_cons_zero, Option.some.injEq] at ha
      simp only [List.get?_cons_succ] at hb
      subst ha
      simpa using cons_set_perm t m y z hb
    | Nat.succ n, 0 =>
      simp only [List.get?_cons_zero, Option.some.injEq] at hb
      simp only [List.get?_cons_succ] at ha
      subst hb
      simpa using cons_set_perm t n x z ha
    | Nat.succ n, Nat.succ m =>
      simp only [List.get?_cons_succ] at ha hb
      simpa using (ih n m x y ha hb).cons z

/-- The `listSwap` operation permutes the list, in every case. -/
theorem listSwap_perm {T : Type} (s : List T) (a b : Nat) : (listSwap s a b).Perm s := by
  unfold listSwap
  cases ha : s.get? a with
  | none => exact List.Perm.refl s
  | some x =>
    cases hb : s.get? b with
    | none => exact List.Perm.refl s
    | some y => exact set_set_perm s a b x y ha hb

/-- Embedding of `SquareLattice<T, Ix1>`: a dense one-dimensional array of
sites.  The side length and the site count both equal `state.length`, exactly
as `len_of(Axis(0))` and `len()` coincide for `Ix1`. -/
structure SquareLattice1D (T : Type) where
  state : List T
deriving DecidableEq, Repr

/-- Embedding of `length()` for the 1D lattice: `state.len_of(Axis(0))`. -/
def SquareLattice1D.length {T : Type} (l : SquareLattice1D T) : Nat := l.state.length

/-- Embedding of `site_count()` for the 1D lattice: `state.len()`. -/
def SquareLattice1D.site_count {T : Type} (l : SquareLattice1D T) : Nat := l.state.length

/-- Embedding of `sites()` for the 1D lattice: iteration over the array in order. -/
def SquareLattice1D.sites {T : Type} (l : SquareLattice1D T) : List T := l.state

/-- Embedding of `SiteState::uniform(length, site)` for the 1D lattice:
`Array1::from_elem(length, site)`. -/
def SquareLattice1D.uniform {T : Type} (length : Nat) (site : T) : SquareLattice1D T :=
  ⟨List.replicate length site⟩

/-- Embedding of `SiteState::random(length, dist, rng)` for the 1D lattice:
`Array1::random_using(length, dist, rng)` draws one site per position in
order; `dist` maps one raw draw to a site value.  Returns the lattice and the
advanced stream position. -/
def SquareLattice1D.random {T : Type} (length : Nat) (dist : Nat → T)
    (rng : RngStream) (pos : Nat) : SquareLattice1D T × Nat :=
  (⟨(List.range length).map (fun k => dist (rng (pos + k)))⟩, pos + length)

/-- Embedding of `SiteState::set_uniform(site)` for the 1D lattice: `state.fill(site)`. -/
def SquareLattice1D.set_uniform {T : Type} (l : SquareLattice1D T) (site : T) :
    SquareLattice1D T :=
  ⟨l.state.map (fun _ => site)⟩

/-- Embedding of `SiteState::set_random(dist, rng)` for the 1D lattice: overwrite every
site, in iteration order, with a fresh draw from `dist`. -/
def SquareLattice1D.set_random {T : Type} (l : SquareLattice1D T) (dist : Nat → T)
    (rng : RngStream) (pos : Nat) : SquareLattice1D T × Nat :=
  (⟨(List.range l.state.length).map (fun k => dist (rng (pos + k)))⟩, pos + l.state.length)

/-- Embedding of `Distribution::sample` for the 1D lattice: one uniform draw over
`0..length` from `site_dist`. -/
def SquareLattice1D.sample {T : Type} (l : SquareLattice1D T) (rng : RngStream)
    (pos : Nat) : Nat × Nat :=
  (rng pos % l.length, pos + 1)

/-- One iteration of the 1D `SimpleSwapDiffusion::diffuse` loop: sample a
site, take its fixed `next` neighbor, flip the diffusion coin, swap on
success.  `coin` models `Bernoulli::sample` on one raw draw. -/
def diffuseStep1D {T : Type} (coin : Nat → Bool) (l : SquareLattice1D T)
    (rng : RngStream) (pos : Nat) : SquareLattice1D T × Nat :=
  let i := rng pos % l.length
  let nn := nextIdx l.length i
  let l' := if coin (rng (pos + 1)) then ⟨listSwap l.state i nn⟩ else l
  (l', pos + 2)

/-- The 1D diffusion loop, `n` iterations. -/
def diffuseLoop1D {T : Type} (coin : Nat → Bool) :
    Nat → SquareLattice1D T → RngStream → Nat → SquareLattice1D T × Nat
  | 0, l, _, pos => (l, pos)
  | Nat.succ n, l, rng, pos =>
    let r := diffuseStep1D coin l rng pos
    diffuseLoop1D coin n r.1 rng r.2

/-- Embedding of `SimpleSwapDiffusion::diffuse` for the 1D lattice: `site_count()`
loop iterations. -/
def SquareLattice1D.diffuse {T : Type} (coin : Nat → Bool) (l : SquareLattice1D T)
    (rng : RngStream) (pos : Nat) : SquareLattice1D T × Nat :=
  diffuseLoop1D coin l.site_count l rng pos

/-- Embedding of `n` successive `diffuse` calls on the 1D lattice. -/
def diffuseCalls1D {T : Type} (coin : Nat → Bool) :
    Nat → SquareLattice1D T → RngStream → Nat → SquareLattice1D T × Nat
  | 0, l, _, pos => (l, pos)
  | Nat.succ n, l, rng, pos =>
    let r := SquareLattice1D.diffuse coin l rng pos
    diffuseCalls1D coin n r.1 rng r.2

/-- Embedding of `SquareLattice<T, Ix2>`: side length (`len_of(Axis(0))`) and
the dense array in row-major order, entry `(i, j)` at flat position
`i * length + j`. -/
structure SquareLattice2D (T : Type) where
  length : Nat
  state : List T
deriving DecidableEq, Repr

/-- Embedding of `site_count()` for the 2D lattice: `state.len()`. -/
def SquareLattice2D.site_count {T : Type} (l : SquareLattice2D T) : Nat := l.state.length

/-- Embedding of `sites()` for the 2D lattice: row-major iteration over the array. -/
def SquareLattice2D.sites {T : Type} (l : SquareLattice2D T) : List T := l.state

/-- Array read `state[[i, j]]` on the 2D lattice. -/
def SquareLattice2D.getSite {T : Type} [Inhabited T] (l : SquareLattice2D T)
    (i j : Nat) : T :=
  l.state.getD (i * l.length + j) default

/-- Embedding of `SiteState::uniform(side_length, site)` for the 2D lattice:
`Array2::from_elem([side_length; 2], site)`. -/
def SquareLattice2D.uniform {T : Type} (sideLength : Nat) (site : T) : SquareLattice2D T :=
  ⟨sideLength, List.replicate (sideLength * sideLength) site⟩

/-- Embedding of `SiteState::random(side_length, dist, rng)` for the 2D lattice: one draw
per site in row-major order. -/
def SquareLattice2D.random {T : Type} (sideLength : Nat) (dist : Nat → T)
    (rng : RngStream) (pos : Nat) : SquareLattice2D T × Nat :=
  (⟨sideLength, (List.range (sideLength * sideLength)).map (fun k => dist (rng (pos + k)))⟩,
    pos + sideLength * sideLength)

/-- Embedding of `SiteState::set_uniform(site)` for the 2D lattice: `state.fill(site)`. -/
def SquareLattice2D.set_uniform {T : Type} (l : SquareLattice2D T) (site : T) :
    SquareLattice2D T :=
  ⟨l.length, l.state.map (fun _ => site)⟩

/-- Embedding of `SiteState::set_random(dist, rng)` for the 2D lattice. -/
def SquareLattice2D.set_random {T : Type} (l : SquareLattice2D T) (dist : Nat → T)
    (rng : RngStream) (pos : Nat) : SquareLattice2D T × Nat :=
  (⟨l.length, (List.range l.state.length).map (fun k => dist (rng (pos + k)))⟩,
    pos + l.state.length)

/-- Embedding of `Distribution::sample` for the 2D lattice: two independent uniform draws
over `0..length`, one per coordinate. -/
def SquareLattice2D.sample {T : Type} (l : SquareLattice2D T) (rng : RngStream)
    (pos : Nat) : (Nat × Nat) × Nat :=
  ((rng pos % l.length, rng (pos + 1) % l.length), pos + 2)

/-- Embedding of `SquareLattice<T, Ix3>`: side length and the dense array in
row-major order, entry `(i, j, k)` at flat position `(i * length + j) * length + k`. -/
structure SquareLattice3D (T : Type) where
  length : Nat
  state : List T
deriving DecidableEq, Repr

/-- Embedding of `site_count()` for the 3D lattice: `state.len()`. -/
def SquareLattice3D.site_count {T : Type} (l : SquareLattice3D T) : Nat := l.state.length

/-- Embedding of `sites()` for the 3D lattice: row-major iteration over the array. -/
def SquareLattice3D.sites {T : Type} (l : SquareLattice3D T) : List T := l.state

/-- Array read `state[[i, j, k]]` on the 3D lattice. -/
def SquareLattice3D.getSite {T : Type} [Inhabited T] (l : SquareLattice3D T)
    (i j k : Nat) : T :=
  l.state.getD ((i * l.length + j) * l.length + k) default

/-- Embedding of `SiteState::uniform(side_length, site)` for the 3D lattice. -/
def SquareLattice3D.uniform {T : Type} (sideLength : Nat) (site : T) : SquareLattice3D T :=
  ⟨sideLength, List.replicate (sideLength * sideLength * sideLength) site⟩

/-- Embedding of `SiteState::random(side_length, dist, rng)` for the 3D lattice. -/
def SquareLattice3D.random {T : Type} (sideLength : Nat) (dist : Nat → T)
    (rng : RngStream) (pos : Nat) : SquareLattice3D T × Nat :=
  (⟨sideLength,
      (List.range (sideLength * sideLength * sideLength)).map (fun k => dist (rng (pos + k)))⟩,
    pos + sideLength * sideLength * sideLength)

/-- Embedding of `SiteState::set_uniform(site)` for the 3D lattice. -/
def SquareLattice3D.set_uniform {T : Type} (l : SquareLattice3D T) (site : T) :
    SquareLattice3D T :=
  ⟨l.length, l.state.map (fun _ => site)⟩

/-- Embedding of `SiteState::set_random(dist, rng)` for the 3D lattice. -/
def SquareLattice3D.set_random {T : Type} (l : SquareLattice3D T) (dist : Nat → T)
    (rng : RngStream) (pos : Nat) : SquareLattice3D T × Nat :=
  (⟨l.length, (List.range l.state.length).map (fun k => dist (rng (pos + k)))⟩,
    pos + l.state.length)

/-- Embedding of `Distribution::sample` for the 3D lattice: three independent uniform
draws over `0..length`. -/
def SquareLattice3D.sample {T : Type} (l : SquareLattice3D T) (rng : RngStream)
    (pos : Nat) : (Nat × Nat × Nat) × Nat :=
  ((rng pos % l.length, rng (pos + 1) % l.length, rng (pos + 2) % l.length), pos + 3)

/-- Embedding of `nearest_neighbors_index(i)` for the 1D lattice: `[prev(i), next(i)]`. -/
def nearest_neighbors_index_1d (L i : Nat) : List Nat :=
  [prevIdx L i, nextIdx L i]

/-- Embedding of `nearest_neighbors_index_pairs()` for the 1D lattice:
`(0..site_count()).map(|i| (i, next(i)))`. -/
def nearest_neighbors_index_pairs_1d (L : Nat) : List (Nat × Nat) :=
  (List.range L).map (fun i => (i, nextIdx L i))

/-- Embedding of `nearest_neighbors_index([i, j])` for the 2D lattice, in source order:
previous/next along the inner axis `j`, then previous/next along `i`. -/
def nearest_neighbors_index_2d (L i j : Nat) : List (Nat × Nat) :=
  [(i, prevIdx L j), (i, nextIdx L j), (prevIdx L i, j), (nextIdx L i, j)]

/-- Embedding of `nearest_neighbors_index_pairs()` for the 2D lattice: for every `(i, j)`
in row-major order, the two forward pairs toward `next(j)` and `next(i)`. -/
def nearest_neighbors_index_pairs_2d (L : Nat) : List ((Nat × Nat) × (Nat × Nat)) :=
  (List.range L).flatMap (fun i => (List.range L).flatMap (fun j =>
    [((i, j), (i, nextIdx L j)), ((i, j), (nextIdx L i, j))]))

/-- Embedding of `nearest_neighbors_index([i, j, k])` for the 3D lattice, in source order:
previous/next along `k`, then along `j`, then along `i`. -/
def nearest_neighbors_index_3d (L i j k : Nat) : List (Nat × Nat × Nat) :=
  [(i, j, prevIdx L k), (i, j, nextIdx L k), (i, prevIdx L j, k), (i, nextIdx L j, k),
    (prevIdx L i, j, k), (nextIdx L i, j, k)]

/-- Embedding of `nearest_neighbors_index_pairs()` for the 3D lattice: for every
`(i, j, k)` in row-major order, the three forward pairs. -/
def nearest_neighbors_index_pairs_3d (L : Nat) : List ((Nat × Nat × Nat) × (Nat × Nat × Nat)) :=
  (List.range L).flatMap (fun i => (List.range L).flatMap (fun j => (List.range L).flatMap (fun k =>
    [((i, j, k), (i, j, nextIdx L k)), ((i, j, k), (i, nextIdx L j, k)),
      ((i, j, k), (nextIdx L i, j, k))])))

/-- Embedding of `nearest_neighbors(i)` for the 1D lattice: the values at `prev(i)` and
`next(i)`, in that order. -/
def SquareLattice1D.nearest_neighbors {T : Type} [Inhabited T] (l : SquareLattice1D T)
    (i : Nat) : List T :=
  [l.state.getD (prevIdx l.length i) default, l.state.getD (nextIdx l.length i) default]

/-- Embedding of `nearest_neighbors_pairs()` for the 1D lattice: `(state[i], state[next(i)])`
for every `i` in iteration order. -/
def SquareLattice1D.nearest_neighbors_pairs {T : Type} [Inhabited T]
    (l : SquareLattice1D T) : List (T × T) :=
  (List.range l.length).map
    (fun i => (l.state.getD i default, l.state.getD (nextIdx l.length i) default))

/-- Embedding of `nearest_neighbors([i, j])` for the 2D lattice, in source order: values at
`(i, prev(j))`, `(prev(i), j)`, `(i, next(j))`, `(next(i), j)`. -/
def SquareLattice2D.nearest_neighbors {T : Type} [Inhabited T] (l : SquareLattice2D T)
    (i j : Nat) : List T :=
  [l.getSite i (prevIdx l.length j), l.getSite (prevIdx l.length i) j,
    l.getSite i (nextIdx l.length j), l.getSite (nextIdx l.length i) j]

/-- Embedding of `nearest_neighbors_pairs()` for the 2D lattice: for every `(i, j)` in
row-major order, the two forward value pairs. -/
def SquareLattice2D.nearest_neighbors_pairs {T : Type} [Inhabited T]
    (l : SquareLattice2D T) : List (T × T) :=
  (List.range l.length).flatMap (fun i => (List.range l.length).flatMap (fun j =>
    [(l.getSite i j, l.getSite i (nextIdx l.length j)),
      (l.getSite i j, l.getSite (nextIdx l.length i) j)]))

/-- Embedding of `nearest_neighbors([i, j, k])` for the 3D lattice, in source order: the
three `prev` values (inner axis first) then the three `next` values. -/
def SquareLattice3D.nearest_neighbors {T : Type} [Inhabited T] (l : SquareLattice3D T)
    (i j k : Nat) : List T :=
  [l.getSite i j (prevIdx l.length k), l.getSite i (prevIdx l.length j) k,
    l.getSite (prevIdx l.length i) j k, l.getSite i j (nextIdx l.length k),
    l.getSite i (nextIdx l.length j) k, l.getSite (nextIdx l.length i) j k]

/-- Embedding of `nearest_neighbors_pairs()` for the 3D lattice: for every `(i, j, k)` in
row-major order, the three forward value pairs. -/
def SquareLattice3D.nearest_neighbors_pairs {T : Type} [Inhabited T]
    (l : SquareLattice3D T) : List (T × T) :=
  (List.range l.length).flatMap (fun i => (List.range l.length).flatMap (fun j =>
    (List.range l.length).flatMap (fun k =>
      [(l.getSite i j k, l.getSite i j (nextIdx l.length k)),
        (l.getSite i j k, l.getSite i (nextIdx l.length j) k),
        (l.getSite i j k, l.getSite (nextIdx l.length i) j k)])))

/-- One iteration of the 2D `SimpleSwapDiffusion::diffuse` loop: sample a
site (two draws), pick the forward axis with `rng.gen::<bool>()` (one draw,
`true` = inner axis `j`), flip the diffusion coin (one draw), swap on
success. -/
def diffuseStep2D {T : Type} (coin : Nat → Bool) (l : SquareLattice2D T)
    (rng : RngStream) (pos : Nat) : SquareLattice2D T × Nat :=
  let L := l.length
  let i := rng pos % L
  let j := rng (pos + 1) % L
  let nn : Nat × Nat :=
    if rng (pos + 2) % 2 = 1 then (i, nextIdx L j) else (nextIdx L i, j)
  let l' :=
    if coin (rng (pos + 3)) then
      ⟨L, listSwap l.state (i * L + j) (nn.1 * L + nn.2)⟩
    else l
  (l', pos + 4)

/-- The 2D diffusion loop, `n` iterations. -/
def diffuseLoop2D {T : Type} (coin : Nat → Bool) :
    Nat → SquareLattice2D T → RngStream → Nat → SquareLattice2D T × Nat
  | 0, l, _, pos => (l, pos)
  | Nat.succ n, l, rng, pos =>
    let r := diffuseStep2D coin l rng pos
    diffuseLoop2D coin n r.1 rng r.2

/-- Embedding of `SimpleSwapDiffusion::diffuse` for the 2D lattice: `site_count()`
loop iterations. -/
def SquareLattice2D.diffuse {T : Type} (coin : Nat → Bool) (l : SquareLattice2D T)
    (rng : RngStream) (pos : Nat) : SquareLattice2D T × Nat :=
  diffuseLoop2D coin l.site_count l rng pos

/-- Embedding of `n` successive `diffuse` calls on the 2D lattice. -/
def diffuseCalls2D {T : Type} (coin : Nat → Bool) :
    Nat → SquareLattice2D T → RngStream → Nat → SquareLattice2D T × Nat
  | 0, l, _, pos => (l, pos)
  | Nat.succ n, l, rng, pos =>
    let r := SquareLattice2D.diffuse coin l rng pos
    diffuseCalls2D coin n r.1 rng r.2

/-- One iteration of the 3D `SimpleSwapDiffusion::diffuse` loop: sample a
site (three draws), pick the forward axis with a uniform draw over `0..3`
(`0` = inner axis `k`, `1` = axis `j`, otherwise axis `i`), flip the
diffusion coin, swap on success. -/
def diffuseStep3D {T : Type} (coin : Nat → Bool) (l : SquareLattice3D T)
    (rng : RngStream) (pos : Nat) : SquareLattice3D T × Nat :=
  let L := l.length
  let i := rng pos % L
  let j := rng (pos + 1) % L
  let k := rng (pos + 2) % L
  let nn : Nat × Nat × Nat :=
    if rng (pos + 3) % 3 = 0 then (i, j, nextIdx L k)
    else if rng (pos + 3) % 3 = 1 then (i, nextIdx L j, k)
    else (nextIdx L i, j, k)
  let l' :=
    if coin (rng (pos + 4)) then
      ⟨L, listSwap l.state ((i * L + j) * L + k) ((nn.1 * L + nn.2.1) * L + nn.2.2)⟩
    else l
  (l', pos + 5)

/-- The 3D diffusion loop, `n` iterations. -/
def diffuseLoop3D {T : Type} (coin : Nat → Bool) :
    Nat → SquareLattice3D T → RngStream → Nat → SquareLattice3D T × Nat
  | 0, l, _, pos => (l, pos)
  | Nat.succ n, l, rng, pos =>
    let r := diffuseStep3D coin l rng pos
    diffuseLoop3D coin n r.1 rng r.2

/-- Embedding of `SimpleSwapDiffusion::diffuse` for the 3D lattice: `site_count()`
loop iterations. -/
def SquareLattice3D.diffuse {T : Type} (coin : Nat → Bool) (l : SquareLattice3D T)
    (rng : RngStream) (pos : Nat) : SquareLattice3D T × Nat :=
  diffuseLoop3D coin l.site_count l rng pos

/-- Embedding of `n` successive `diffuse` calls on the 3D lattice. -/
def diffuseCalls3D {T : Type} (coin : Nat → Bool) :
    Nat → SquareLattice3D T → RngStream → Nat → SquareLattice3D T × Nat
  | 0, l, _, pos => (l, pos)
  | Nat.succ n, l, rng, pos =>
    let r := SquareLattice3D.diffuse coin l rng pos
    diffuseCalls3D coin n r.1 rng r.2

/-- Embedding of `InitialStateSpec::reset` of `UniformSites(v)` on the 1D lattice:
`state.set_uniform(v)`. -/
def uniformSitesReset1D {T : Type} (v : T) (l : SquareLattice1D T) : SquareLattice1D T :=
  l.set_uniform v

/-- Embedding of `InitialStateSpec::reset` of `UniformSites(v)` on the 2D lattice. -/
def uniformSitesReset2D {T : Type} (v : T) (l : SquareLattice2D T) : SquareLattice2D T :=
  l.set_uniform v

/-- Embedding of `InitialStateSpec::reset` of `UniformSites(v)` on the 3D lattice. -/
def uniformSitesReset3D {T : Type} (v : T) (l : SquareLattice3D T) : SquareLattice3D T :=
  l.set_uniform v

theorem periodicity_new_some (L : Nat) (hL : 1 ≤ L) : ∃ p, Periodicity.new L = some p := by
  unfold Periodicity.new
  rw [if_neg (by omega)]
  exact ⟨_, rfl⟩

/-- C1: for every `length ≥ 1` (realizable as a `usize`),
`Periodicity::new(length)` returns tables with `prev[0] = length - 1` and
`next[length - 1] = 0`, mapping every other index `i` to `i - 1` and `i + 1`
respectively, and satisfying `next(prev(i)) = i` and `prev(next(i)) = i` for
every `i` in `0..length`. -/
theorem periodicity_ring_tables_correct (L : Nat) (hL : 1 ≤ L) (hU : L ≤ USIZE) :
    ∃ p, Periodicity.new L = some p ∧
      p.prev 0 = some (L - 1) ∧
      p.next (L - 1) = some 0 ∧
      (∀ i, 1 ≤ i → i < L → p.prev i = some (i - 1)) ∧
      (∀ i, i < L - 1 → p.next i = some (i + 1)) ∧
      (∀ i, i < L → (p.prev i).bind p.next = some i ∧ (p.next i).bind p.prev = some i) := by
  obtain ⟨p, hp⟩ := periodicity_new_some L hL
  refine ⟨p, hp, ?_, ?_, ?_, ?_, ?_⟩
  · rw [periodicity_prev_get_idx L hL hU p hp 0 (by omega)]
    simp [prevIdx]
  · rw [periodicity_next_get L hL p hp (L - 1), if_pos (by omega)]
    simp [nextIdx]
  · intro i h1 h2
    rw [periodicity_prev_get_idx L hL hU p hp i h2]
    have hne : ¬ i = 0 := by omega
    simp [prevIdx, hne]
  · intro i h
    rw [periodicity_next_get L hL p hp i, if_pos (by omega)]
    have hne : ¬ i = L - 1 := by omega
    simp [nextIdx, hne]
  · intro i hi
    constructor
    · rw [periodicity_prev_get_idx L hL hU p hp i hi]
      simp only [Option.some_bind]
      rw [periodicity_next_get L hL p hp (prevIdx L i), if_pos (prevIdx_lt L i hL hi)]
      rw [nextIdx_prevIdx L i hi]
    · rw [periodicity_next_get L hL p hp i, if_pos hi]
      simp only [Option.some_bind]
      rw [periodicity_prev_get_idx L hL hU p hp (nextIdx L i) (nextIdx_lt L i hi)]
      rw [prevIdx_nextIdx L i hi]

/-- Witness for C1 at `length = 5`. -/
theorem periodicity_ring_tables_correct_witness :
    ∃ p, Periodicity.new 5 = some p ∧
      p.prev 0 = some (5 - 1) ∧
      p.next (5 - 1) = some 0 ∧
      (∀ i, 1 ≤ i → i < 5 → p.prev i = some (i - 1)) ∧
      (∀ i, i < 5 - 1 → p.next i = some (i + 1)) ∧
      (∀ i, i < 5 → (p.prev i).bind p.next = some i ∧ (p.next i).bind p.prev = some i) :=
  periodicity_ring_tables_correct 5 (by decide) (by norm_num [USIZE])

theorem wrappingSub1_of_pos (k : Nat) (hk : 1 ≤ k) : wrappingSub1 k = (k - 1) % USIZE := by
  unfold wrappingSub1
  have hU1 : 1 ≤ USIZE := Nat.one_le_two_pow
  have : k + (USIZE - 1) = (k - 1) + USIZE := by omega
  rw [this, Nat.add_mod_right]

/-- C8: `Periodicity::new(0)` panics (`none`); for `length ≥ 1` construction
succeeds, `prev(i)`/`next(i)` return an in-range index exactly when
`i < length`, and out-of-range `i` panics (`none`) rather than returning a
value. -/
theorem periodicity_zero_panics_and_bounds :
    Periodicity.new 0 = none ∧
    ∀ L, 1 ≤ L → ∃ p, Periodicity.new L = some p ∧
      (∀ i, i < L →
        (∃ a, p.prev i = some a ∧ a < L) ∧ (∃ b, p.next i = some b ∧ b < L)) ∧
      (∀ i, L ≤ i → p.prev i = none ∧ p.next i = none) := by
  constructor
  · rfl
  · intro L hL
    obtain ⟨p, hp⟩ := periodicity_new_some L hL
    refine ⟨p, hp, ?_, ?_⟩
    · intro i hi
      constructor
      · rw [periodicity_prev_get L hL p hp i, if_pos hi]
        refine ⟨_, rfl, ?_⟩
        by_cases h0 : i = 0
        · rw [if_pos h0]
          omega
        · rw [if_neg h0, wrappingSub1_of_pos i (by omega)]
          have := Nat.mod_le (i - 1) USIZE
          omega
      · rw [periodicity_next_get L hL p hp i, if_pos hi]
        exact ⟨_, rfl, nextIdx_lt L i hi⟩
    · intro i hi
      constructor
      · rw [periodicity_prev_get L hL p hp i, if_neg (by omega)]
      · rw [periodicity_next_get L hL p hp i, if_neg (by omega)]

/-- Witness for C8 at `length = 4`. -/
theorem periodicity_zero_panics_and_bounds_witness :
    Periodicity.new 0 = none ∧
    (∃ p, Periodicity.new 4 = some p ∧
      (∀ i, i < 4 →
        (∃ a, p.prev i = some a ∧ a < 4) ∧ (∃ b, p.next i = some b ∧ b < 4)) ∧
      (∀ i, 4 ≤ i → p.prev i = none ∧ p.next i = none)) :=
  ⟨periodicity_zero_panics_and_bounds.1,
    periodicity_zero_panics_and_bounds.2 4 (by decide)⟩

theorem diffuseStep1D_perm {T : Type} (coin : Nat → Bool) (l : SquareLattice1D T)
    (rng : RngStream) (pos : Nat) :
    ((diffuseStep1D coin l rng pos).1).state.Perm l.state := by
  unfold diffuseStep1D
  dsimp only
  split
  · exact listSwap_perm _ _ _
  · exact List.Perm.refl _

theorem diffuseLoop1D_perm {T : Type} (coin : Nat → Bool) :
    ∀ (n : Nat) (l : SquareLattice1D T) (rng : RngStream) (pos : Nat),
      ((diffuseLoop1D coin n l rng pos).1).state.Perm l.state := by
  intro n
  induction n with
  | zero => intro l rng pos; exact List.Perm.refl _
  | succ m ih =>
    intro l rng pos
    exact (ih _ rng _).trans (diffuseStep1D_perm coin l rng pos)

theorem diffuseCalls1D_perm {T : Type} (coin : Nat → Bool) :
    ∀ (n : Nat) (l : SquareLattice1D T) (rng : RngStream) (pos : Nat),
      ((diffuseCalls1D coin n l rng pos).1).state.Perm l.state := by
  intro n
  induction n with
  | zero => intro l rng pos; exact List.Perm.refl _
  | succ m ih =>
    intro l rng pos
    exact (ih _ rng _).trans (diffuseLoop1D_perm coin _ l rng pos)

theorem diffuseStep2D_perm {T : Type} (coin : Nat → Bool) (l : SquareLattice2D T)
    (rng : RngStream) (pos : Nat) :
    ((diffuseStep2D coin l rng pos).1).state.Perm l.state := by
  unfold diffuseStep2D
  dsimp only
  split
  · exact listSwap_perm _ _ _
  · exact List.Perm.refl _

theorem diffuseLoop2D_perm {T : Type} (coin : Nat → Bool) :
    ∀ (n : Nat) (l : SquareLattice2D T) (rng : RngStream) (pos : Nat),
      ((diffuseLoop2D coin n l rng pos).1).state.Perm l.state := by
  intro n
  induction n with
  | zero => intro l rng pos; exact List.Perm.refl _
  | succ m ih =>
    intro l rng pos
    exact (ih _ rng _).trans (diffuseStep2D_perm coin l rng pos)

theorem diffuseCalls2D_perm {T : Type} (coin : Nat → Bool) :
    ∀ (n : Nat) (l : SquareLattice2D T) (rng : RngStream) (pos : Nat),
      ((diffuseCalls2D coin n l rng pos).1).state.Perm l.state := by
  intro n
  induction n with
  | zero => intro l rng pos; exact List.Perm.refl _
  | succ m ih =>
    intro l rng pos
    exact (ih _ rng _).trans (diffuseLoop2D_perm coin _ l rng pos)

theorem diffuseStep3D_perm {T : Type} (coin : Nat → Bool) (l : SquareLattice3D T)
    (rng : RngStream) (pos : Nat) :
    ((diffuseStep3D coin l rng pos).1).state.Perm l.state := by
  unfold diffuseStep3D
  dsimp only
  split
  · exact listSwap_perm _ _ _
  · exact List.Perm.refl _

theorem diffuseLoop3D_perm {T : Type} (coin : Nat → Bool) :
    ∀ (n : Nat) (l : SquareLattice3D T) (rng : RngStream) (pos : Nat),
      ((diffuseLoop3D coin n l rng pos).1).state.Perm l.state := by
  intro n
  induction n with
  | zero => intro l rng pos; exact List.Perm.refl _
  | succ m ih =>
    intro l rng pos
    exact (ih _ rng _).trans (diffuseStep3D_perm coin l rng pos)

theorem diffuseCalls3D_perm {T : Type} (coin : Nat → Bool) :
    ∀ (n : Nat) (l : SquareLattice3D T) (rng : RngStream) (pos : Nat),
      ((diffuseCalls3D coin n l rng pos).1).state.Perm l.state := by
  intro n
  induction n with
  | zero => intro l rng pos; exact List.Perm.refl _
  | succ m ih =>
    intro l rng pos
    exact (ih _ rng _).trans (diffuseLoop3D_perm coin _ l rng pos)

/-- C2: in every dimension, for every site type, diffusion-coin model,
pseudorandom source and number of `diffuse` calls, the count of each site
value after the calls equals the count before them. -/
theorem diffuse_conserves_site_counts {T : Type} [DecidableEq T] (coin : Nat → Bool)
    (rng : RngStream) (pos : Nat) (n : Nat) (v : T)
    (l1 : SquareLattice1D T) (l2 : SquareLattice2D T) (l3 : SquareLattice3D T) :
    ((diffuseCalls1D coin n l1 rng pos).1).state.count v = l1.state.count v ∧
    ((diffuseCalls2D coin n l2 rng pos).1).state.count v = l2.state.count v ∧
    ((diffuseCalls3D coin n l3 rng pos).1).state.count v = l3.state.count v :=
  ⟨(diffuseCalls1D_perm coin n l1 rng pos).count_eq v,
    (diffuseCalls2D_perm coin n l2 rng pos).count_eq v,
    (diffuseCalls3D_perm coin n l3 rng pos).count_eq v⟩

theorem map_const_eq_replicate {T : Type} (v : T) :
    ∀ s : List T, s.map (fun _ => v) = List.replicate s.length v := by
  intro s
  induction s with
  | nil => rfl
  | cons x t ih => simp [List.replicate_succ, ih]

/-- C6: in every dimension, `uniform(shape, v)` (side length ≥ 1) builds a
lattice whose every site equals `v`, and `set_uniform(v)` on any existing
lattice leaves every site equal to `v`. -/
theorem uniform_and_set_uniform_fill_all_sites {T : Type} (L : Nat) (hL : 1 ≤ L) (v : T)
    (l1 : SquareLattice1D T) (l2 : SquareLattice2D T) (l3 : SquareLattice3D T) :
    (∀ x ∈ (SquareLattice1D.uniform L v).sites, x = v) ∧
    (∀ x ∈ (SquareLattice2D.uniform L v).sites, x = v) ∧
    (∀ x ∈ (SquareLattice3D.uniform L v).sites, x = v) ∧
    (∀ x ∈ (l1.set_uniform v).sites, x = v) ∧
    (∀ x ∈ (l2.set_uniform v).sites, x = v) ∧
    (∀ x ∈ (l3.set_uniform v).sites, x = v) := by
  refine ⟨?_, ?_, ?_, ?_, ?_, ?_⟩
  · intro x hx
    exact List.eq_of_mem_replicate hx
  · intro x hx
    exact List.eq_of_mem_replicate hx
  · intro x hx
    exact List.eq_of_mem_replicate hx
  · intro x hx
    obtain ⟨a, _, h⟩ := List.mem_map.mp hx
    exact h.symm
  · intro x hx
    obtain ⟨a, _, h⟩ := List.mem_map.mp hx
    exact h.symm
  · intro x hx
    obtain ⟨a, _, h⟩ := List.mem_map.mp hx
    exact h.symm

/-- Witness for C6 at side length `3`, `v = true`, over concrete prior
lattices. -/
theorem uniform_and_set_uniform_fill_all_sites_witness :
    (∀ x ∈ (SquareLattice1D.uniform 3 true).sites, x = true) ∧
    (∀ x ∈ (SquareLattice2D.uniform 3 true).sites, x = true) ∧
    (∀ x ∈ (SquareLattice3D.uniform 3 true).sites, x = true) ∧
    (∀ x ∈ (SquareLattice1D.set_uniform ⟨[false, true]⟩ true).sites, x = true) ∧
    (∀ x ∈ (SquareLattice2D.set_uniform ⟨2, [false, true, false, true]⟩ true).sites, x = true) ∧
    (∀ x ∈ (SquareLattice3D.set_uniform ⟨1, [false]⟩ true).sites, x = true) :=
  uniform_and_set_uniform_fill_all_sites 3 (by decide) true
    ⟨[false, true]⟩ ⟨2, [false, true, false, true]⟩ ⟨1, [false]⟩

/-- C7: in every dimension, constructing with `random(shape, dist, rng)` and
then resetting with `UniformSites(v)` yields exactly the lattice built by
`uniform(shape, v)` (the sampling distribution is not part of the modelled
state, so equality is content equality). -/
theorem random_then_reset_uniform_eq_uniform {T : Type} (L : Nat) (dist : Nat → T)
    (rng : RngStream) (pos : Nat) (v : T) :
    uniformSitesReset1D v (SquareLattice1D.random L dist rng pos).1 =
      SquareLattice1D.uniform L v ∧
    uniformSitesReset2D v (SquareLattice2D.random L dist rng pos).1 =
      SquareLattice2D.uniform L v ∧
    uniformSitesReset3D v (SquareLattice3D.random L dist rng pos).1 =
      SquareLattice3D.uniform L v := by
  refine ⟨?_, ?_, ?_⟩
  · show SquareLattice1D.mk (((List.range L).map fun k => dist (rng (pos + k))).map fun _ => v) =
      SquareLattice1D.mk (List.replicate L v)
    rw [map_const_eq_replicate, List.length_map, List.length_range]
  · show SquareLattice2D.mk L
        (((List.range (L * L)).map fun k => dist (rng (pos + k))).map fun _ => v) =
      SquareLattice2D.mk L (List.replicate (L * L) v)
    rw [map_const_eq_replicate, List.length_map, List.length_range]
  · show SquareLattice3D.mk L
        (((List.range (L * L * L)).map fun k => dist (rng (pos + k))).map fun _ => v) =
      SquareLattice3D.mk L (List.replicate (L * L * L) v)
    rw [map_const_eq_replicate, List.length_map, List.length_range]

theorem length_flatMap_const {α β : Type} (c : Nat) :
    ∀ (l : List α) (f : α → List β), (∀ a ∈ l, (f a).length = c) →
      (l.flatMap f).length = l.length * c := by
  intro l
  induction l with
  | nil => intro f _; simp
  | cons x t ih =>
    intro f h
    simp only [List.flatMap_cons, List.length_append, List.length_cons]
    rw [h x (by simp), ih f (fun a ha => h a (by simp [ha]))]
    ring

theorem pairs1D_length (L : Nat) : (nearest_neighbors_index_pairs_1d L).length = L := by
  unfold nearest_neighbors_index_pairs_1d
  rw [List.length_map, List.length_range]

theorem pairs2D_length (L : Nat) : (nearest_neighbors_index_pairs_2d L).length = 2 * (L * L) := by
  unfold nearest_neighbors_index_pairs_2d
  rw [length_flatMap_const (L * 2)]
  · rw [List.length_range]; ring
  · intro i _
    rw [length_flatMap_const 2]
    · rw [List.length_range]
    · intro j _
      rfl

theorem pairs3D_length (L : Nat) :
    (nearest_neighbors_index_pairs_3d L).length = 3 * (L * L * L) := by
  unfold nearest_neighbors_index_pairs_3d
  rw [length_flatMap_const (L * (L * 3))]
  · rw [List.length_range]; ring
  · intro i _
    rw [length_flatMap_const (L * 3)]
    · rw [List.length_range]
    · intro j _
      rw [length_flatMap_const 3]
      · rw [List.length_range]
      · intro k _
        rfl

/-- C3: in every dimension, `nearest_neighbors_index_pairs()` yields exactly
`Dimension * site_count()` pairs (given the shape invariant tying the array
size to the side length), each of the form (idx, next-direction neighbor of
idx along one axis), and the two indices of every yielded pair are mutually
members of each other's `nearest_neighbors_index`. -/
theorem nearest_neighbor_pairs_count_and_mutual {T : Type}
    (l1 : SquareLattice1D T) (l2 : SquareLattice2D T) (l3 : SquareLattice3D T)
    (h2 : l2.state.length = l2.length * l2.length)
    (h3 : l3.state.length = l3.length * l3.length * l3.length) :
    ((nearest_neighbors_index_pairs_1d l1.length).length = 1 * l1.site_count ∧
      ∀ pr ∈ nearest_neighbors_index_pairs_1d l1.length,
        pr.2 = nextIdx l1.length pr.1 ∧
        pr.2 ∈ nearest_neighbors_index_1d l1.length pr.1 ∧
        pr.1 ∈ nearest_neighbors_index_1d l1.length pr.2) ∧
    ((nearest_neighbors_index_pairs_2d l2.length).length = 2 * l2.site_count ∧
      ∀ pr ∈ nearest_neighbors_index_pairs_2d l2.length,
        (pr.2 = (pr.1.1, nextIdx l2.length pr.1.2) ∨
          pr.2 = (nextIdx l2.length pr.1.1, pr.1.2)) ∧
        pr.2 ∈ nearest_neighbors_index_2d l2.length pr.1.1 pr.1.2 ∧
        pr.1 ∈ nearest_neighbors_index_2d l2.length pr.2.1 pr.2.2) ∧
    ((nearest_neighbors_index_pairs_3d l3.length).length = 3 * l3.site_count ∧
      ∀ pr ∈ nearest_neighbors_index_pairs_3d l3.length,
        (pr.2 = (pr.1.1, pr.1.2.1, nextIdx l3.length pr.1.2.2) ∨
          pr.2 = (pr.1.1, nextIdx l3.length pr.1.2.1, pr.1.2.2) ∨
          pr.2 = (nextIdx l3.length pr.1.1, pr.1.2.1, pr.1.2.2)) ∧
        pr.2 ∈ nearest_neighbors_index_3d l3.length pr.1.1 pr.1.2.1 pr.1.2.2 ∧
        pr.1 ∈ nearest_neighbors_index_3d l3.length pr.2.1 pr.2.2.1 pr.2.2.2) := by
  refine ⟨⟨?_, ?_⟩, ⟨?_, ?_⟩, ⟨?_, ?_⟩⟩
  · rw [pairs1D_length]
    unfold SquareLattice1D.site_count SquareLattice1D.length
    omega
  · intro pr hpr
    simp only [nearest_neighbors_index_pairs_1d, List.mem_map, List.mem_range] at hpr
    obtain ⟨i, hi, rfl⟩ := hpr
    refine ⟨rfl, ?_, ?_⟩
    · simp [nearest_neighbors_index_1d]
    · simp only [nearest_neighbors_index_1d, List.mem_cons, List.mem_singleton]
      exact Or.inl (prevIdx_nextIdx l1.length i hi).symm
  · rw [pairs2D_length]
    unfold SquareLattice2D.site_count
    omega
  · intro pr hpr
    simp only [nearest_neighbors_index_pairs_2d, List.mem_flatMap, List.mem_range,
      List.mem_cons, List.mem_singleton, List.not_mem_nil, or_false] at hpr
    obtain ⟨i, hi, j, hj, hpr⟩ := hpr
    rcases hpr with rfl | rfl
    · refine ⟨Or.inl rfl, ?_, ?_⟩
      · simp [nearest_neighbors_index_2d]
      · simp only [nearest_neighbors_index_2d, List.mem_cons, List.mem_singleton]
        exact Or.inl (by rw [prevIdx_nextIdx l2.length j hj])
    · refine ⟨Or.inr rfl, ?_, ?_⟩
      · simp [nearest_neighbors_index_2d]
      · simp only [nearest_neighbors_index_2d, List.mem_cons, List.mem_singleton]
        exact Or.inr (Or.inr (Or.inl (by rw [prevIdx_nextIdx l2.length i hi])))
  · rw [pairs3D_length]
    unfold SquareLattice3D.site_count
    omega
  · intro pr hpr
    simp only [nearest_neighbors_index_pairs_3d, List.mem_flatMap, List.mem_range,
      List.mem_cons, List.mem_singleton, List.not_mem_nil, or_false] at hpr
    obtain ⟨i, hi, j, hj, k, hk, hpr⟩ := hpr
    rcases hpr with rfl | rfl | rfl
    · refine ⟨Or.inl rfl, ?_, ?_⟩
      · simp [nearest_neighbors_index_3d]
      · simp only [nearest_neighbors_index_3d, List.mem_cons, List.mem_singleton]
        exact Or.inl (by rw [prevIdx_nextIdx l3.length k hk])
    · refine ⟨Or.inr (Or.inl rfl), ?_, ?_⟩
      · simp [nearest_neighbors_index_3d]
      · simp only [nearest_neighbors_index_3d, List.mem_cons, List.mem_singleton]
        exact Or.inr (Or.inr (Or.inl (by rw [prevIdx_nextIdx l3.length j hj])))
    · refine ⟨Or.inr (Or.inr rfl), ?_, ?_⟩
      · simp [nearest_neighbors_index_3d]
      · simp only [nearest_neighbors_index_3d, List.mem_cons, List.mem_singleton]
        exact Or.inr (Or.inr (Or.inr (Or.inr (Or.inl
          (by rw [prevIdx_nextIdx l3.length i hi])))))

/-- Witness for C3 over concrete lattices (1D side 3, 2D and 3D side 2). -/
theorem nearest_neighbor_pairs_count_and_mutual_witness :
    ((nearest_neighbors_index_pairs_1d (SquareLattice1D.uniform 3 true).length).length =
        1 * (SquareLattice1D.uniform 3 true).site_count ∧
      ∀ pr ∈ nearest_neighbors_index_pairs_1d (SquareLattice1D.uniform 3 true).length,
        pr.2 = nextIdx (SquareLattice1D.uniform 3 true).length pr.1 ∧
        pr.2 ∈ nearest_neighbors_index_1d (SquareLattice1D.uniform 3 true).length pr.1 ∧
        pr.1 ∈ nearest_neighbors_index_1d (SquareLattice1D.uniform 3 true).length pr.2) ∧
    ((nearest_neighbors_index_pairs_2d (SquareLattice2D.uniform 2 true).length).length =
        2 * (SquareLattice2D.uniform 2 true).site_count ∧
      ∀ pr ∈ nearest_neighbors_index_pairs_2d (SquareLattice2D.uniform 2 true).length,
        (pr.2 = (pr.1.1, nextIdx (SquareLattice2D.uniform 2 true).length pr.1.2) ∨
          pr.2 = (nextIdx (SquareLattice2D.uniform 2 true).length pr.1.1, pr.1.2)) ∧
        pr.2 ∈ nearest_neighbors_index_2d (SquareLattice2D.uniform 2 true).length pr.1.1 pr.1.2 ∧
        pr.1 ∈ nearest_neighbors_index_2d (SquareLattice2D.uniform 2 true).length pr.2.1 pr.2.2) ∧
    ((nearest_neighbors_index_pairs_3d (SquareLattice3D.uniform 2 true).length).length =
        3 * (SquareLattice3D.uniform 2 true).site_count ∧
      ∀ pr ∈ nearest_neighbors_index_pairs_3d (SquareLattice3D.uniform 2 true).length,
        (pr.2 = (pr.1.1, pr.1.2.1, nextIdx (SquareLattice3D.uniform 2 true).length pr.1.2.2) ∨
          pr.2 = (pr.1.1, nextIdx (SquareLattice3D.uniform 2 true).length pr.1.2.1, pr.1.2.2) ∨
          pr.2 = (nextIdx (SquareLattice3D.uniform 2 true).length pr.1.1, pr.1.2.1, pr.1.2.2)) ∧
        pr.2 ∈ nearest_neighbors_index_3d (SquareLattice3D.uniform 2 true).length
          pr.1.1 pr.1.2.1 pr.1.2.2 ∧
        pr.1 ∈ nearest_neighbors_index_3d (SquareLattice3D.uniform 2 true).length
          pr.2.1 pr.2.2.1 pr.2.2.2) :=
  nearest_neighbor_pairs_count_and_mutual
    (SquareLattice1D.uniform 3 true) (SquareLattice2D.uniform 2 true)
    (SquareLattice3D.uniform 2 true) (by decide) (by decide)

theorem prevIdx_ne (L k : Nat) (hL : 2 ≤ L) (hk : k < L) : prevIdx L k ≠ k := by
  unfold prevIdx
  split <;> omega

theorem nextIdx_ne (L k : Nat) (hL : 2 ≤ L) (hk : k < L) : nextIdx L k ≠ k := by
  unfold nextIdx
  split <;> omega

/-- C4: in every dimension, `nearest_neighbors_index(idx)` on an in-range
index returns exactly `2 * Dimension` entries, in the fixed
prev-then-next-per-axis order (innermost axis first) read off the
`Periodicity` tables, and all entries differ from `idx` when the side length
exceeds 2.  The embedding is a pure function of the side length and the
index, so two calls with the same `idx` yield the same sequence by
construction. -/
theorem nearest_neighbors_index_count_order_distinct (L : Nat) (hL : 1 ≤ L)
    (hU : L ≤ USIZE) :
    ∃ p, Periodicity.new L = some p ∧
      (∀ i, i < L →
        (nearest_neighbors_index_1d L i).length = 2 * 1 ∧
        (∃ pi ni, p.prev i = some pi ∧ p.next i = some ni ∧
          nearest_neighbors_index_1d L i = [pi, ni]) ∧
        (2 < L → ∀ m ∈ nearest_neighbors_index_1d L i, m ≠ i)) ∧
      (∀ i j, i < L → j < L →
        (nearest_neighbors_index_2d L i j).length = 2 * 2 ∧
        (∃ pi ni pj nj, p.prev i = some pi ∧ p.next i = some ni ∧
          p.prev j = some pj ∧ p.next j = some nj ∧
          nearest_neighbors_index_2d L i j = [(i, pj), (i, nj), (pi, j), (ni, j)]) ∧
        (2 < L → ∀ m ∈ nearest_neighbors_index_2d L i j, m ≠ (i, j))) ∧
      (∀ i j k, i < L → j < L → k < L →
        (nearest_neighbors_index_3d L i j k).length = 2 * 3 ∧
        (∃ pi ni pj nj pk nk, p.prev i = some pi ∧ p.next i = some ni ∧
          p.prev j = some pj ∧ p.next j = some nj ∧
          p.prev k = some pk ∧ p.next k = some nk ∧
          nearest_neighbors_index_3d L i j k =
            [(i, j, pk), (i, j, nk), (i, pj, k), (i, nj, k), (pi, j, k), (ni, j, k)]) ∧
        (2 < L → ∀ m ∈ nearest_neighbors_index_3d L i j k, m ≠ (i, j, k))) := by
  obtain ⟨p, hp⟩ := periodicity_new_some L hL
  refine ⟨p, hp, ?_, ?_, ?_⟩
  · intro i hi
    refine ⟨rfl, ?_, ?_⟩
    · exact ⟨prevIdx L i, nextIdx L i,
        periodicity_prev_get_idx L hL hU p hp i hi,
        by rw [periodicity_next_get L hL p hp i, if_pos hi], rfl⟩
    · intro h2 m hm
      simp only [nearest_neighbors_index_1d, List.mem_cons, List.mem_singleton,
        List.not_mem_nil, or_false] at hm
      rcases hm with rfl | rfl
      · exact prevIdx_ne L i (by omega) hi
      · exact nextIdx_ne L i (by omega) hi
  · intro i j hi hj
    refine ⟨rfl, ?_, ?_⟩
    · exact ⟨prevIdx L i, nextIdx L i, prevIdx L j, nextIdx L j,
        periodicity_prev_get_idx L hL hU p hp i hi,
        by rw [periodicity_next_get L hL p hp i, if_pos hi],
        periodicity_prev_get_idx L hL hU p hp j hj,
        by rw [periodicity_next_get L hL p hp j, if_pos hj], rfl⟩
    · intro h2 m hm
      simp only [nearest_neighbors_index_2d, List.mem_cons, List.mem_singleton,
        List.not_mem_nil, or_false] at hm
      rcases hm with rfl | rfl | rfl | rfl
      · exact fun h => prevIdx_ne L j (by omega) hj (congrArg Prod.snd h)
      · exact fun h => nextIdx_ne L j (by omega) hj (congrArg Prod.snd h)
      · exact fun h => prevIdx_ne L i (by omega) hi (congrArg Prod.fst h)
      · exact fun h => nextIdx_ne L i (by omega) hi (congrArg Prod.fst h)
  · intro i j k hi hj hk
    refine ⟨rfl, ?_, ?_⟩
    · exact ⟨prevIdx L i, nextIdx L i, prevIdx L j, nextIdx L j, prevIdx L k, nextIdx L k,
        periodicity_prev_get_idx L hL hU p hp i hi,
        by rw [periodicity_next_get L hL p hp i, if_pos hi],
        periodicity_prev_get_idx L hL hU p hp j hj,
        by rw [periodicity_next_get L hL p hp j, if_pos hj],
        periodicity_prev_get_idx L hL hU p hp k hk,
        by rw [periodicity_next_get L hL p hp k, if_pos hk], rfl⟩
    · intro h2 m hm
      simp only [nearest_neighbors_index_3d, List.mem_cons, List.mem_singleton,
        List.not_mem_nil, or_false] at hm
      rcases hm with rfl | rfl | rfl | rfl | rfl | rfl
      · exact fun h => prevIdx_ne L k (by omega) hk (congrArg (fun t => t.2.2) h)
      · exact fun h => nextIdx_ne L k (by omega) hk (congrArg (fun t => t.2.2) h)
      · exact fun h => prevIdx_ne L j (by omega) hj (congrArg (fun t => t.2.1) h)
      · exact fun h => nextIdx_ne L j (by omega) hj (congrArg (fun t => t.2.1) h)
      · exact fun h => prevIdx_ne L i (by omega) hi (congrArg Prod.fst h)
      · exact fun h => nextIdx_ne L i (by omega) hi (congrArg Prod.fst h)

/-- Witness for C4 at side length `4`. -/
theorem nearest_neighbors_index_count_order_distinct_witness :
    ∃ p, Periodicity.new 4 = some p ∧
      (∀ i, i < 4 →
        (nearest_neighbors_index_1d 4 i).length = 2 * 1 ∧
        (∃ pi ni, p.prev i = some pi ∧ p.next i = some ni ∧
          nearest_neighbors_index_1d 4 i = [pi, ni]) ∧
        (2 < 4 → ∀ m ∈ nearest_neighbors_index_1d 4 i, m ≠ i)) ∧
      (∀ i j, i < 4 → j < 4 →
        (nearest_neighbors_index_2d 4 i j).length = 2 * 2 ∧
        (∃ pi ni pj nj, p.prev i = some pi ∧ p.next i = some ni ∧
          p.prev j = some pj ∧ p.next j = some nj ∧
          nearest_neighbors_index_2d 4 i j = [(i, pj), (i, nj), (pi, j), (ni, j)]) ∧
        (2 < 4 → ∀ m ∈ nearest_neighbors_index_2d 4 i j, m ≠ (i, j))) ∧
      (∀ i j k, i < 4 → j < 4 → k < 4 →
        (nearest_neighbors_index_3d 4 i j k).length = 2 * 3 ∧
        (∃ pi ni pj nj pk nk, p.prev i = some pi ∧ p.next i = some ni ∧
          p.prev j = some pj ∧ p.next j = some nj ∧
          p.prev k = some pk ∧ p.next k = some nk ∧
          nearest_neighbors_index_3d 4 i j k =
            [(i, j, pk), (i, j, nk), (i, pj, k), (i, nj, k), (pi, j, k), (ni, j, k)]) ∧
        (2 < 4 → ∀ m ∈ nearest_neighbors_index_3d 4 i j k, m ≠ (i, j, k))) :=
  nearest_neighbors_index_count_order_distinct 4 (by decide) (by norm_num [USIZE])

/-- C5 counterexample: on the 2D lattice of side 3 whose sites are
`0, 1, ..., 8` in row-major order, `nearest_neighbors([0, 0])` yields
`[2, 6, 1, 3]` while dereferencing `nearest_neighbors_index([0, 0])` in order
yields `[2, 1, 6, 3]` — the same values, but not in the same order. -/
theorem nearest_neighbors_order_counterexample :
    (SquareLattice2D.mk 3 (List.range 9)).nearest_neighbors 0 0 ≠
      (nearest_neighbors_index_2d (SquareLattice2D.mk 3 (List.range 9)).length 0 0).map
        (fun ab => (SquareLattice2D.mk 3 (List.range 9)).getSite ab.1 ab.2) := by
  decide

/-- C5 (amended): `nearest_neighbors(idx)` yields exactly the site values
stored at the indices yielded by `nearest_neighbors_index(idx)` — in the same
order in 1D, and as the same multiset (a fixed reordering: the value variant
lists all `prev`-direction values before all `next`-direction values) in 2D
and 3D; `nearest_neighbors_pairs()` yields, in order, exactly the site-value
pairs stored at the index pairs yielded by `nearest_neighbors_index_pairs()`
in every dimension. -/
theorem nearest_neighbors_values_agree_up_to_fixed_order {T : Type} [Inhabited T]
    (l1 : SquareLattice1D T) (l2 : SquareLattice2D T) (l3 : SquareLattice3D T)
    (a b c d e f : Nat) :
    l1.nearest_neighbors a =
      (nearest_neighbors_index_1d l1.length a).map (fun m => l1.state.getD m default) ∧
    l1.nearest_neighbors_pairs =
      (nearest_neighbors_index_pairs_1d l1.length).map
        (fun pr => (l1.state.getD pr.1 default, l1.state.getD pr.2 default)) ∧
    (l2.nearest_neighbors b c).Perm
      ((nearest_neighbors_index_2d l2.length b c).map (fun m => l2.getSite m.1 m.2)) ∧
    l2.nearest_neighbors_pairs =
      (nearest_neighbors_index_pairs_2d l2.length).map
        (fun pr => (l2.getSite pr.1.1 pr.1.2, l2.getSite pr.2.1 pr.2.2)) ∧
    (l3.nearest_neighbors d e f).Perm
      ((nearest_neighbors_index_3d l3.length d e f).map
        (fun m => l3.getSite m.1 m.2.1 m.2.2)) ∧
    l3.nearest_neighbors_pairs =
      (nearest_neighbors_index_pairs_3d l3.length).map
        (fun pr => (l3.getSite pr.1.1 pr.1.2.1 pr.1.2.2,
          l3.getSite pr.2.1 pr.2.2.1 pr.2.2.2)) := by
  refine ⟨rfl, ?_, ?_, ?_, ?_, ?_⟩
  · simp only [SquareLattice1D.nearest_neighbors_pairs, nearest_neighbors_index_pairs_1d,
      List.map_map]
    rfl
  · simp only [SquareLattice2D.nearest_neighbors, nearest_neighbors_index_2d,
      List.map_cons, List.map_nil]
    generalize l2.getSite b (prevIdx l2.length c) = x1
    generalize l2.getSite (prevIdx l2.length b) c = x2
    generalize l2.getSite b (nextIdx l2.length c) = x3
    generalize l2.getSite (nextIdx l2.length b) c = x4
    exact List.Perm.cons x1 (List.Perm.swap x3 x2 [x4])
  · simp only [SquareLattice2D.nearest_neighbors_pairs, nearest_neighbors_index_pairs_2d,
      List.map_flatMap, List.map_cons, List.map_nil]
  · simp only [SquareLattice3D.nearest_neighbors, nearest_neighbors_index_3d,
      List.map_cons, List.map_nil]
    generalize l3.getSite d e (prevIdx l3.length f) = x1
    generalize l3.getSite d (prevIdx l3.length e) f = x2
    generalize l3.getSite (prevIdx l3.length d) e f = x3
    generalize l3.getSite d e (nextIdx l3.length f) = x4
    generalize l3.getSite d (nextIdx l3.length e) f = x5
    generalize l3.getSite (nextIdx l3.length d) e f = x6
    exact List.Perm.cons x1
      ((((List.Perm.swap x4 x3 [x5, x6]).trans
        ((List.Perm.swap x5 x3 [x6]).cons x4)).cons x2).trans
          (List.Perm.swap x4 x2 [x5, x3, x6]))
  · simp only [SquareLattice3D.nearest_neighbors_pairs, nearest_neighbors_index_pairs_3d,
      List.map_flatMap, List.map_cons, List.map_nil]

/-- Canonical representative of an undirected pair, ordering the two
endpoints by an encoding into `Nat`. -/
def undirectedPair {α : Type} (enc : α → Nat) (pr : α × α) : α × α :=
  if enc pr.1 ≤ enc pr.2 then pr else (pr.2, pr.1)

/-- C10: at side length exactly 2, `nearest_neighbors_index_pairs()` does not
deduplicate: in each dimension the output still has
`Dimension * site_count()` pairs, every yielded pair's reversal is also
yielded (and differs from it), each undirected edge occurs exactly twice, and
the number of distinct undirected edges is half the pair count. -/
theorem length_two_pairs_duplicate_edges :
    ((nearest_neighbors_index_pairs_1d 2).length = 1 * 2 ∧
      (∀ pr ∈ nearest_neighbors_index_pairs_1d 2,
        (pr.2, pr.1) ∈ nearest_neighbors_index_pairs_1d 2 ∧ (pr.2, pr.1) ≠ pr ∧
        (nearest_neighbors_index_pairs_1d 2).count pr
          + (nearest_neighbors_index_pairs_1d 2).count (pr.2, pr.1) = 2) ∧
      ((nearest_neighbors_index_pairs_1d 2).map
        (undirectedPair (fun m => m))).dedup.length = 1 * 2 / 2) ∧
    ((nearest_neighbors_index_pairs_2d 2).length = 2 * 4 ∧
      (∀ pr ∈ nearest_neighbors_index_pairs_2d 2,
        (pr.2, pr.1) ∈ nearest_neighbors_index_pairs_2d 2 ∧ (pr.2, pr.1) ≠ pr ∧
        (nearest_neighbors_index_pairs_2d 2).count pr
          + (nearest_neighbors_index_pairs_2d 2).count (pr.2, pr.1) = 2) ∧
      ((nearest_neighbors_index_pairs_2d 2).map
        (undirectedPair (fun m => m.1 * 2 + m.2))).dedup.length = 2 * 4 / 2) ∧
    ((nearest_neighbors_index_pairs_3d 2).length = 3 * 8 ∧
      (∀ pr ∈ nearest_neighbors_index_pairs_3d 2,
        (pr.2, pr.1) ∈ nearest_neighbors_index_pairs_3d 2 ∧ (pr.2, pr.1) ≠ pr ∧
        (nearest_neighbors_index_pairs_3d 2).count pr
          + (nearest_neighbors_index_pairs_3d 2).count (pr.2, pr.1) = 2) ∧
      ((nearest_neighbors_index_pairs_3d 2).map
        (undirectedPair (fun m => (m.1 * 2 + m.2.1) * 2 + m.2.2))).dedup.length
          = 3 * 8 / 2) := by
  decide

theorem diffuseStep1D_agree {T : Type} (coin : Nat → Bool) (l : SquareLattice1D T)
    (pos : Nat) (r1 r2 : RngStream)
    (h0 : r1 pos = r2 pos) (h1 : r1 (pos + 1) = r2 (pos + 1)) :
    diffuseStep1D coin l r1 pos = diffuseStep1D coin l r2 pos := by
  unfold diffuseStep1D
  rw [h0, h1]

theorem diffuseLoop1D_agree {T : Type} (coin : Nat → Bool) :
    ∀ (n : Nat) (l : SquareLattice1D T) (pos : Nat) (r1 r2 : RngStream),
      (∀ q, q < 2 * n → r1 (pos + q) = r2 (pos + q)) →
      diffuseLoop1D coin n l r1 pos = diffuseLoop1D coin n l r2 pos := by
  intro n
  induction n with
  | zero => intro l pos r1 r2 _; rfl
  | succ m ih =>
    intro l pos r1 r2 h
    have hs : diffuseStep1D coin l r1 pos = diffuseStep1D coin l r2 pos :=
      diffuseStep1D_agree coin l pos r1 r2 (by simpa using h 0 (by omega)) (h 1 (by omega))
    simp only [diffuseLoop1D]
    rw [hs]
    refine ih _ _ r1 r2 (fun q hq => ?_)
    have hp : (diffuseStep1D coin l r2 pos).2 = pos + 2 := rfl
    have e : (diffuseStep1D coin l r2 pos).2 + q = pos + (q + 2) := by omega
    rw [e]
    exact h (q + 2) (by omega)

theorem diffuseStep2D_agree {T : Type} (coin : Nat → Bool) (l : SquareLattice2D T)
    (pos : Nat) (r1 r2 : RngStream)
    (h0 : r1 pos = r2 pos) (h1 : r1 (pos + 1) = r2 (pos + 1))
    (h2 : r1 (pos + 2) = r2 (pos + 2)) (h3 : r1 (pos + 3) = r2 (pos + 3)) :
    diffuseStep2D coin l r1 pos = diffuseStep2D coin l r2 pos := by
  unfold diffuseStep2D
  rw [h0, h1, h2, h3]

theorem diffuseLoop2D_agree {T : Type} (coin : Nat → Bool) :
    ∀ (n : Nat) (l : SquareLattice2D T) (pos : Nat) (r1 r2 : RngStream),
      (∀ q, q < 4 * n → r1 (pos + q) = r2 (pos + q)) →
      diffuseLoop2D coin n l r1 pos = diffuseLoop2D coin n l r2 pos := by
  intro n
  induction n with
  | zero => intro l pos r1 r2 _; rfl
  | succ m ih =>
    intro l pos r1 r2 h
    have hs : diffuseStep2D coin l r1 pos = diffuseStep2D coin l r2 pos :=
      diffuseStep2D_agree coin l pos r1 r2 (by simpa using h 0 (by omega))
        (h 1 (by omega)) (h 2 (by omega)) (h 3 (by omega))
    simp only [diffuseLoop2D]
    rw [hs]
    refine ih _ _ r1 r2 (fun q hq => ?_)
    have hp : (diffuseStep2D coin l r2 pos).2 = pos + 4 := rfl
    have e : (diffuseStep2D coin l r2 pos).2 + q = pos + (q + 4) := by omega
    rw [e]
    exact h (q + 4) (by omega)

theorem diffuseStep3D_agree {T : Type} (coin : Nat → Bool) (l : SquareLattice3D T)
    (pos : Nat) (r1 r2 : RngStream)
    (h0 : r1 pos = r2 pos) (h1 : r1 (pos + 1) = r2 (pos + 1))
    (h2 : r1 (pos + 2) = r2 (pos + 2)) (h3 : r1 (pos + 3) = r2 (pos + 3))
    (h4 : r1 (pos + 4) = r2 (pos + 4)) :
    diffuseStep3D coin l r1 pos = diffuseStep3D coin l r2 pos := by
  unfold diffuseStep3D
  rw [h0, h1, h2, h3, h4]

theorem diffuseLoop3D_agree {T : Type} (coin : Nat → Bool) :
    ∀ (n : Nat) (l : SquareLattice3D T) (pos : Nat) (r1 r2 : RngStream),
      (∀ q, q < 5 * n → r1 (pos + q) = r2 (pos + q)) →
      diffuseLoop3D coin n l r1 pos = diffuseLoop3D coin n l r2 pos := by
  intro n
  induction n with
  | zero => intro l pos r1 r2 _; rfl
  | succ m ih =>
    intro l pos r1 r2 h
    have hs : diffuseStep3D coin l r1 pos = diffuseStep3D coin l r2 pos :=
      diffuseStep3D_agree coin l pos r1 r2 (by simpa using h 0 (by omega))
        (h 1 (by omega)) (h 2 (by omega)) (h 3 (by omega)) (h 4 (by omega))
    simp only [diffuseLoop3D]
    rw [hs]
    refine ih _ _ r1 r2 (fun q hq => ?_)
    have hp : (diffuseStep3D coin l r2 pos).2 = pos + 5 := rfl
    have e : (diffuseStep3D coin l r2 pos).2 + q = pos + (q + 5) := by omega
    rw [e]
    exact h (q + 5) (by omega)

theorem map_range_agree {T : Type} (dist : Nat → T) (n pos : Nat) (r1 r2 : RngStream)
    (h : ∀ q, q < n → r1 (pos + q) = r2 (pos + q)) :
    (List.range n).map (fun k => dist (r1 (pos + k))) =
      (List.range n).map (fun k => dist (r2 (pos + k))) := by
  apply List.map_congr_left
  intro a ha
  rw [h a (List.mem_range.mp ha)]

/-- C9: every randomized operation — `sample` (random-index sampling),
`random`, `set_random` and `diffuse`, in every dimension — reads only the
caller-supplied pseudorandom stream, and only the draws it consumes: two
streams that agree on the consumed positions produce identical results, so
identically-seeded runs are bitwise reproducible. -/
theorem randomized_ops_use_only_caller_stream {T : Type} (coin : Nat → Bool)
    (dist : Nat → T) (pos : Nat) (r1 r2 : RngStream) :
    (∀ l : SquareLattice1D T, (∀ q, q < 1 → r1 (pos + q) = r2 (pos + q)) →
      l.sample r1 pos = l.sample r2 pos) ∧
    (∀ l : SquareLattice2D T, (∀ q, q < 2 → r1 (pos + q) = r2 (pos + q)) →
      l.sample r1 pos = l.sample r2 pos) ∧
    (∀ l : SquareLattice3D T, (∀ q, q < 3 → r1 (pos + q) = r2 (pos + q)) →
      l.sample r1 pos = l.sample r2 pos) ∧
    (∀ L, (∀ q, q < L → r1 (pos + q) = r2 (pos + q)) →
      SquareLattice1D.random L dist r1 pos = SquareLattice1D.random L dist r2 pos) ∧
    (∀ L, (∀ q, q < L * L → r1 (pos + q) = r2 (pos + q)) →
      SquareLattice2D.random L dist r1 pos = SquareLattice2D.random L dist r2 pos) ∧
    (∀ L, (∀ q, q < L * L * L → r1 (pos + q) = r2 (pos + q)) →
      SquareLattice3D.random L dist r1 pos = SquareLattice3D.random L dist r2 pos) ∧
    (∀ l : SquareLattice1D T, (∀ q, q < l.state.length → r1 (pos + q) = r2 (pos + q)) →
      l.set_random dist r1 pos = l.set_random dist r2 pos) ∧
    (∀ l : SquareLattice2D T, (∀ q, q < l.state.length → r1 (pos + q) = r2 (pos + q)) →
      l.set_random dist r1 pos = l.set_random dist r2 pos) ∧
    (∀ l : SquareLattice3D T, (∀ q, q < l.state.length → r1 (pos + q) = r2 (pos + q)) →
      l.set_random dist r1 pos = l.set_random dist r2 pos) ∧
    (∀ l : SquareLattice1D T, (∀ q, q < 2 * l.site_count → r1 (pos + q) = r2 (pos + q)) →
      SquareLattice1D.diffuse coin l r1 pos = SquareLattice1D.diffuse coin l r2 pos) ∧
    (∀ l : SquareLattice2D T, (∀ q, q < 4 * l.site_count → r1 (pos + q) = r2 (pos + q)) →
      SquareLattice2D.diffuse coin l r1 pos = SquareLattice2D.diffuse coin l r2 pos) ∧
    (∀ l : SquareLattice3D T, (∀ q, q < 5 * l.site_count → r1 (pos + q) = r2 (pos + q)) →
      SquareLattice3D.diffuse coin l r1 pos = SquareLattice3D.diffuse coin l r2 pos) := by
  refine ⟨?_, ?_, ?_, ?_, ?_, ?_, ?_, ?_, ?_, ?_, ?_, ?_⟩
  · intro l h
    unfold SquareLattice1D.sample
    rw [show r1 pos = r2 pos from by simpa using h 0 (by omega)]
  · intro l h
    unfold SquareLattice2D.sample
    rw [show r1 pos = r2 pos from by simpa using h 0 (by omega), h 1 (by omega)]
  · intro l h
    unfold SquareLattice3D.sample
    rw [show r1 pos = r2 pos from by simpa using h 0 (by omega), h 1 (by omega),
      h 2 (by omega)]
  · intro L h
    unfold SquareLattice1D.random
    rw [map_range_agree dist L pos r1 r2 h]
  · intro L h
    unfold SquareLattice2D.random
    rw [map_range_agree dist (L * L) pos r1 r2 h]
  · intro L h
    unfold SquareLattice3D.random
    rw [map_range_agree dist (L * L * L) pos r1 r2 h]
  · intro l h
    unfold SquareLattice1D.set_random
    rw [map_range_agree dist l.state.length pos r1 r2 h]
  · intro l h
    unfold SquareLattice2D.set_random
    rw [map_range_agree dist l.state.length pos r1 r2 h]
  · intro l h
    unfold SquareLattice3D.set_random
    rw [map_range_agree dist l.state.length pos r1 r2 h]
  · intro l h
    exact diffuseLoop1D_agree coin l.site_count l pos r1 r2 h
  · intro l h
    exact diffuseLoop2D_agree coin l.site_count l pos r1 r2 h
  · intro l h
    exact diffuseLoop3D_agree coin l.site_count l pos r1 r2 h

/-- Witness for C9: two concrete streams agreeing below position 1000 drive
every randomized operation to identical results on small concrete lattices. -/
theorem randomized_ops_use_only_caller_stream_witness :
    (SquareLattice1D.mk [true, false, true]).sample (fun q => q) 0 =
      (SquareLattice1D.mk [true, false, true]).sample
        (fun q => if q < 1000 then q else q + 7) 0 ∧
    (SquareLattice2D.mk 2 [true, false, false, true]).sample (fun q => q) 0 =
      (SquareLattice2D.mk 2 [true, false, false, true]).sample
        (fun q => if q < 1000 then q else q + 7) 0 ∧
    (SquareLattice3D.mk 2 (List.replicate 8 true)).sample (fun q => q) 0 =
      (SquareLattice3D.mk 2 (List.replicate 8 true)).sample
        (fun q => if q < 1000 then q else q + 7) 0 ∧
    SquareLattice1D.random 3 (fun n => decide (n % 3 = 0)) (fun q => q) 0 =
      SquareLattice1D.random 3 (fun n => decide (n % 3 = 0))
        (fun q => if q < 1000 then q else q + 7) 0 ∧
    SquareLattice2D.random 2 (fun n => decide (n % 3 = 0)) (fun q => q) 0 =
      SquareLattice2D.random 2 (fun n => decide (n % 3 = 0))
        (fun q => if q < 1000 then q else q + 7) 0 ∧
    SquareLattice3D.random 2 (fun n => decide (n % 3 = 0)) (fun q => q) 0 =
      SquareLattice3D.random 2 (fun n => decide (n % 3 = 0))
        (fun q => if q < 1000 then q else q + 7) 0 ∧
    (SquareLattice1D.mk [true, false, true]).set_random (fun n => decide (n % 3 = 0))
        (fun q => q) 0 =
      (SquareLattice1D.mk [true, false, true]).set_random (fun n => decide (n % 3 = 0))
        (fun q => if q < 1000 then q else q + 7) 0 ∧
    (SquareLattice2D.mk 2 [true, false, false, true]).set_random
        (fun n => decide (n % 3 = 0)) (fun q => q) 0 =
      (SquareLattice2D.mk 2 [true, false, false, true]).set_random
        (fun n => decide (n % 3 = 0)) (fun q => if q < 1000 then q else q + 7) 0 ∧
    (SquareLattice3D.mk 2 (List.replicate 8 true)).set_random
        (fun n => decide (n % 3 = 0)) (fun q => q) 0 =
      (SquareLattice3D.mk 2 (List.replicate 8 true)).set_random
        (fun n => decide (n % 3 = 0)) (fun q => if q < 1000 then q else q + 7) 0 ∧
    SquareLattice1D.diffuse (fun n => decide (n % 2 = 0))
        (SquareLattice1D.mk [true, false, true]) (fun q => q) 0 =
      SquareLattice1D.diffuse (fun n => decide (n % 2 = 0))
        (SquareLattice1D.mk [true, false, true])
        (fun q => if q < 1000 then q else q + 7) 0 ∧
    SquareLattice2D.diffuse (fun n => decide (n % 2 = 0))
        (SquareLattice2D.mk 2 [true, false, false, true]) (fun q => q) 0 =
      SquareLattice2D.diffuse (fun n => decide (n % 2 = 0))
        (SquareLattice2D.mk 2 [true, false, false, true])
        (fun q => if q < 1000 then q else q + 7) 0 ∧
    SquareLattice3D.diffuse (fun n => decide (n % 2 = 0))
        (SquareLattice3D.mk 2 (List.replicate 8 true)) (fun q => q) 0 =
      SquareLattice3D.diffuse (fun n => decide (n % 2 = 0))
        (SquareLattice3D.mk 2 (List.replicate 8 true))
        (fun q => if q < 1000 then q else q + 7) 0 := by
  have C := @randomized_ops_use_only_caller_stream Bool (fun n => decide (n % 2 = 0))
    (fun n => decide (n % 3 = 0)) 0 (fun q => q) (fun q => if q < 1000 then q else q + 7)
  obtain ⟨c1, c2, c3, c4, c5, c6, c7, c8, c9, c10, c11, c12⟩ := C
  exact ⟨c1 _ (fun q hq => (if_pos (by omega)).symm),
    c2 _ (fun q hq => (if_pos (by omega)).symm),
    c3 _ (fun q hq => (if_pos (by omega)).symm),
    c4 3 (fun q hq => (if_pos (by omega)).symm),
    c5 2 (fun q hq => (if_pos (by omega)).symm),
    c6 2 (fun q hq => (if_pos (by omega)).symm),
    c7 _ (fun q hq => (if_pos (by simp at hq; omega)).symm),
    c8 _ (fun q hq => (if_pos (by simp at hq; omega)).symm),
    c9 _ (fun q hq => (if_pos (by simp at hq; omega)).symm),
    c10 _ (fun q hq => (if_pos
      (by simp [SquareLattice1D.site_count] at hq; omega)).symm),
    c11 _ (fun q hq => (if_pos
      (by simp [SquareLattice2D.site_count] at hq; omega)).symm),
    c12 _ (fun q hq => (if_pos
      (by simp [SquareLattice3D.site_count] at hq; omega)).symm)⟩
